import Mathlib

/-!
Shallow embedding of the pdf_mapping_berlin geolocation engine
(src/location.py and src/code/mapper.py) and verification of its
specification claims.

Numeric modelling: the Python code computes with IEEE floats; here the
arithmetic is carried out exactly in an arbitrary linear ordered field
(instantiated at `ℝ` for the transcendental parts and at `ℚ` for
concrete evaluations).  Coordinates are rational pairs `(lat, lon)`.
Clue objects (`Satellite`, `River`, `BGate`) are modelled by the data
their constructors store; the pdf of a clue is abstracted as a function
from coordinates to field elements, exactly the role `Location.prob`
plays for `Mapper.get_distribution`, which never looks inside it.
-/

namespace PdfMapping

/-- Region constants shared by `location.py` and `mapper.py`. -/
def SW_LAT : ℚ := 52.464011

/-- Southwest longitude constant. -/
def SW_LON : ℚ := 13.274099

/-- Northeast latitude constant. -/
def NE_LAT : ℚ := 52.586925

/-- Northeast longitude constant. -/
def NE_LON : ℚ := 13.521837

/-- `np.linspace(a, b, n)`: `n` evenly spaced samples from `a` to `b`
inclusive; for `n ≤ 1` the step is irrelevant and the single sample
(if any) is `a`. -/
def linspace (a b : ℚ) (n : ℕ) : List ℚ :=
  if n ≤ 1 then (List.range n).map (fun _ => a)
  else (List.range n).map (fun i => a + (b - a) * i / (n - 1))

namespace Mapper

/-- `Mapper.generate_mesh_grid` (mapper.py): `x = linspace(SW_LAT, NE_LAT, n)`,
`y = linspace(SW_LON, NE_LON, n)`, `X, Y = np.meshgrid(x, y)`, returning
`X.flatten(), Y.flatten()`.  With numpy's default indexing,
`X[j, k] = x[k]` and `Y[j, k] = y[j]`, and row-major flattening sends the
pair `(j, k)` to index `i = j * n + k`, so the flat arrays are
`latitudes[i] = x[i % n]` and `longitudes[i] = y[i / n]`. -/
def generate_mesh_grid (n : ℕ) : List ℚ × List ℚ :=
  let x := linspace SW_LAT NE_LAT n
  let y := linspace SW_LON NE_LON n
  ((List.range (n * n)).map (fun i => x.getD (i % n) 0),
   (List.range (n * n)).map (fun i => y.getD (i / n) 0))

end Mapper

namespace Location

/-- `Location.get_pdf` (location.py).  The instance attribute `self.pdf`
is modelled as explicit cache state: `none` before the first call, and
the stored list afterwards.  The call returns the (possibly cached)
density list together with the state after the call.  On a cache miss
the list `[self.prob((x, y)) for x, y in zip(lats, lons)]` is computed
and stored; on a hit the stored list is returned unchanged, whatever
`lats` and `lons` are. -/
def get_pdf {α : Type} (prob : ℚ × ℚ → α) (cache : Option (List α))
    (lats lons : List ℚ) : List α × Option (List α) :=
  match cache with
  | some l => (l, some l)
  | none =>
      let r := (lats.zip lons).map prob
      (r, some r)

/-- The unnormalized accumulator of `Mapper.get_distribution` (mapper.py):
`distribution = np.ones(shape); distribution /= np.sum(distribution)`,
then `distribution *= probs` for each object's density list. -/
def unnorm {α : Type} [Field α] (N : ℕ) (pdfLists : List (List α)) : List α :=
  let ones : List α := List.replicate N 1
  pdfLists.foldl (fun dist probs => List.zipWith (· * ·) dist probs)
    (ones.map (fun v => v / ones.sum))

end Location

namespace Mapper

/-- The pre-normalization product distribution computed inside
`Mapper.get_distribution`, with each object's density list obtained by a
first (cache-empty) call to its `get_pdf`. -/
def prenorm {α : Type} [Field α] (lats lons : List ℚ)
    (objs : List (ℚ × ℚ → α)) : List α :=
  Location.unnorm lats.length
    (objs.map (fun p => (Location.get_pdf p none lats lons).1))

/-- `Mapper.get_distribution` (mapper.py): multiply a uniform prior by
every selected object's density list, then divide once by the total
`np.sum(distribution)`. -/
def get_distribution {α : Type} [Field α] (lats lons : List ℚ)
    (objs : List (ℚ × ℚ → α)) : List α :=
  let d := prenorm lats lons objs
  d.map (fun v => v / d.sum)

/-- `np.argmax`: index of the first occurrence of the maximum value;
`argmaxAux best bv i ys` scans `ys` (whose head sits at absolute index
`i`) with current best index `best` holding value `bv`. -/
def argmaxAux {α : Type} [LinearOrder α] : ℕ → α → ℕ → List α → ℕ
  | best, _, _, [] => best
  | best, bv, i, y :: ys =>
      if bv < y then argmaxAux i y (i + 1) ys else argmaxAux best bv (i + 1) ys

/-- `np.argmax` on a list; `0` on the empty list (numpy raises there,
a case the mapper never produces). -/
def argmax {α : Type} [LinearOrder α] : List α → ℕ
  | [] => 0
  | v :: vs => argmaxAux 0 v 1 vs

/-- `Mapper.find_maximum` (mapper.py): `max_idx = np.argmax(distribution)`,
returning `(latitudes[max_idx], longitudes[max_idx])`. -/
def find_maximum {α : Type} [LinearOrder α] (lats lons : List ℚ)
    (dist : List α) : ℚ × ℚ :=
  let max_idx := argmax dist
  (lats.getD max_idx 0, lons.getD max_idx 0)

end Mapper

/-- `np.radians`: degrees to radians. -/
noncomputable def radians (x : ℝ) : ℝ := x * (Real.pi / 180)

/-- `np.degrees`: radians to degrees. -/
noncomputable def degrees (x : ℝ) : ℝ := x * (180 / Real.pi)

/-- `np.arctan2 y x` on reals (no signed zeros): the angle of the point
`(x, y)` in `(-π, π]`, with `arctan2 0 0 = 0`. -/
noncomputable def arctan2 (y x : ℝ) : ℝ :=
  if 0 < x then Real.arctan (y / x)
  else if x < 0 then
    (if 0 ≤ y then Real.arctan (y / x) + Real.pi
     else Real.arctan (y / x) - Real.pi)
  else
    (if 0 < y then Real.pi / 2 else if y < 0 then -(Real.pi / 2) else 0)

/-- Python float `%` with positive modulus: `a - b * floor (a / b)`. -/
noncomputable def fmod (a b : ℝ) : ℝ := a - b * ⌊a / b⌋

/-- Modelled from the spec: the geodesic primitive the code takes from the
external geopy library (`vincenty(a, b).km`), whose source is not part of
this repository.  The spec describes the geodesy utility as
`greatCircleDistance(a, b) → km`, the standard spherical
haversine-equivalent distance using Earth radius R = 6371 km; that
formula is embedded here.  Coordinates are `(lat, lon)` in degrees. -/
noncomputable def gc_distance (a b : ℚ × ℚ) : ℝ :=
  let phi1 := radians a.1
  let phi2 := radians b.1
  let dphi := radians ((b.1 : ℝ) - (a.1 : ℝ))
  let dlam := radians ((b.2 : ℝ) - (a.2 : ℝ))
  let h := Real.sin (dphi / 2) ^ 2 +
    Real.cos phi1 * Real.cos phi2 * Real.sin (dlam / 2) ^ 2
  2 * 6371 * Real.arcsin (Real.sqrt h)

namespace Satellite

/-- Earth radius `self.R = 6371` from `Satellite.__init__`. -/
def R : ℝ := 6371

/-- `Satellite.bearing` (location.py): initial bearing of the great
circle path from `start` to `endp`, in degrees reduced mod 360. -/
noncomputable def bearing (start endp : ℚ × ℚ) : ℝ :=
  let start_lat := radians start.1
  let end_lat := radians endp.1
  let delta_lon := radians ((endp.2 : ℝ) - (start.2 : ℝ))
  let br := arctan2 (Real.sin delta_lon * Real.cos end_lat)
    (Real.cos start_lat * Real.sin end_lat -
      Real.sin start_lat * Real.cos end_lat * Real.cos delta_lon)
  fmod (degrees br) 360

/-- `Satellite.distance` (location.py): cross-track distance of `point`
from the great circle through `coords = (sat_start, sat_end)`.  The
geodesic library call `vincenty(sat_start, point).km` is abstracted as
the parameter `geo`. -/
noncomputable def distance (geo : ℚ × ℚ → ℚ × ℚ → ℝ)
    (coords : (ℚ × ℚ) × (ℚ × ℚ)) (point : ℚ × ℚ) : ℝ :=
  let delta_13 := geo coords.1 point / R
  let theta_13 := bearing coords.1 point
  let theta_12 := bearing coords.1 coords.2
  Real.arcsin (Real.sin delta_13 * Real.sin (radians (theta_13 - theta_12))) * R

/-- Data stored by `Satellite.__init__`: the coordinate list and the
frozen `scs.norm(0, ci_range / 1.96)` distribution, represented by its
scale parameter. -/
structure Cfg where
  coords : List (ℚ × ℚ)
  sigma : ℚ

/-- `Satellite.__init__` modelled with an explicit error channel for
Python exceptions.  The body only stores attributes and builds a frozen
scipy distribution (scipy does not validate the scale at construction),
so no input raises: every call returns `Except.ok`. -/
def init (coords : List (ℚ × ℚ)) (ci_range : ℚ) : Except String Cfg :=
  Except.ok { coords := coords, sigma := ci_range / 1.96 }

end Satellite

namespace River

/-- `River.convert_xy` (location.py): equirectangular projection into km,
`x = (lon - SW_LON) * cos(SW_LAT * π / 180) * 111.323`,
`y = (lat - SW_LAT) * 111.323`. -/
noncomputable def convert_xy (lon lat : ℚ) : ℝ × ℝ :=
  (((lon : ℝ) - (SW_LON : ℝ)) * Real.cos ((SW_LAT : ℝ) * Real.pi / 180) * 111.323,
   ((lat : ℝ) - (SW_LAT : ℝ)) * 111.323)

/-- `River.make_linear` (location.py): project every coordinate pair with
`convert_xy(*lon_lat)` (the pair is splatted as stored, first component
to the `lon` slot) and chain consecutive projected points into segments,
`zip(xy_coords[:-1], xy_coords[1:])`. -/
noncomputable def make_linear (coords : List (ℚ × ℚ)) : List ((ℝ × ℝ) × (ℝ × ℝ)) :=
  let xy_coords := coords.map (fun c => convert_xy c.1 c.2)
  xy_coords.dropLast.zip xy_coords.tail

/-- Data stored by `River.__init__`: the coordinates, the segment list
and the `scs.norm(0, ci_range / 1.96)` scale. -/
structure Cfg where
  coords : List (ℚ × ℚ)
  lines : List ((ℝ × ℝ) × (ℝ × ℝ))
  sigma : ℚ

/-- `River.__init__` modelled with an explicit error channel for Python
exceptions.  The body (attribute stores, `make_linear`, a frozen normal
distribution) raises on no input — in particular not on coordinate lists
shorter than 2, which just yield an empty segment list — so every call
returns `Except.ok`. -/
noncomputable def init (coords : List (ℚ × ℚ)) (ci_range : ℚ) : Except String Cfg :=
  Except.ok { coords := coords, lines := make_linear coords, sigma := ci_range / 1.96 }

/-- The x-extent `line_x = end[0] - start[0]` of a segment in
`River.line_distance`. -/
def line_x (line : (ℝ × ℝ) × (ℝ × ℝ)) : ℝ := line.2.1 - line.1.1

/-- The y-extent `line_y = end[1] - start[1]` of a segment in
`River.line_distance`. -/
def line_y (line : (ℝ × ℝ) × (ℝ × ℝ)) : ℝ := line.2.2 - line.1.2

/-- `line_length = sqrt(line_x**2 + line_y**2)` in `River.line_distance`. -/
noncomputable def line_length (line : (ℝ × ℝ) × (ℝ × ℝ)) : ℝ :=
  Real.sqrt (line_x line ^ 2 + line_y line ^ 2)

/-- The numerator of the projection parameter `u` in `River.line_distance`:
`(point[0] - start[0]) * line_x + (point[1] - start[1]) * line_y`. -/
def u_num (point : ℝ × ℝ) (line : (ℝ × ℝ) × (ℝ × ℝ)) : ℝ :=
  (point.1 - line.1.1) * line_x line + (point.2 - line.1.2) * line_y line

/-- The unclipped projection parameter `u = u_num / line_length**2` of
`River.line_distance`. -/
noncomputable def u_raw (point : ℝ × ℝ) (line : (ℝ × ℝ) × (ℝ × ℝ)) : ℝ :=
  u_num point line / line_length line ^ 2

/-- `np.clip(u, lo, hi)` for scalars. -/
noncomputable def clip (u lo hi : ℝ) : ℝ := max lo (min u hi)

/-- `River.line_distance` (location.py): clip the projection parameter to
`[0, 1]`, take the corresponding point of the segment and return the
Euclidean distance from the query point to it. -/
noncomputable def line_distance (point : ℝ × ℝ) (line : (ℝ × ℝ) × (ℝ × ℝ)) : ℝ :=
  let u := clip (u_raw point line) 0 1
  let x := line.1.1 + u * line_x line
  let y := line.1.2 + u * line_y line
  let dx := x - point.1
  let dy := y - point.2
  Real.sqrt (dx * dx + dy * dy)

/-- Euclidean distance between two planar points, used to state the
clamping property of `line_distance`. -/
noncomputable def euclid (p q : ℝ × ℝ) : ℝ :=
  Real.sqrt ((q.1 - p.1) ^ 2 + (q.2 - p.2) ^ 2)

end River

namespace BGate

/-- Data stored by `BGate.__init__`: the coordinate list and the
`(mean, mode)` parameters determining the frozen
`scs.lognorm(s, scale)` distribution. -/
structure Cfg where
  coords : List (ℚ × ℚ)
  mean : ℚ
  mode : ℚ

/-- `BGate.__init__` modelled with an explicit error channel for Python
exceptions.  `set_distribution` computes
`s = np.sqrt(np.log(np.exp(mean) / float(mode)))` in numpy scalar
arithmetic, where division by zero and the logarithm or square root of a
negative number emit a RuntimeWarning and produce inf or nan instead of
raising, and `scs.lognorm` freezes the distribution without validating
`s`; so no `(mean, mode)` raises and every call returns `Except.ok`. -/
def init (coords : List (ℚ × ℚ)) (mean mode : ℚ) : Except String Cfg :=
  Except.ok { coords := coords, mean := mean, mode := mode }

end BGate

/-- Whether a modelled constructor call completed without raising. -/
def constructionOk {α : Type} : Except String α → Bool
  | Except.ok _ => true
  | Except.error _ => false

/-- Lattice latitudes `self.latitudes` of a mapper with resolution `n`. -/
def Mapper.latitudes (n : ℕ) : List ℚ := (Mapper.generate_mesh_grid n).1

/-- Lattice longitudes `self.longitudes` of a mapper with resolution `n`. -/
def Mapper.longitudes (n : ℕ) : List ℚ := (Mapper.generate_mesh_grid n).2

/-- The lattice coordinate at flat index `i` of a mapper with
resolution `n`. -/
def Mapper.cell (n i : ℕ) : ℚ × ℚ :=
  ((Mapper.latitudes n).getD i 0, (Mapper.longitudes n).getD i 0)

section ListLemmas

variable {α : Type}

lemma getD_eq_get_of_lt (l : List α) (d : α) {j : ℕ} (hj : j < l.length) :
    l.getD j d = l.get ⟨j, hj⟩ := by
  rw [List.getD_eq_getElem l d hj, List.get_eq_getElem]

lemma zipWith_getElem?_eq {β γ : Type} (f : α → β → γ) {as : List α} {bs : List β}
    {i : ℕ} {a : α} {b : β} (ha : as[i]? = some a) (hb : bs[i]? = some b) :
    (List.zipWith f as bs)[i]? = some (f a b) := by
  simp [List.getElem?_zipWith, ha, hb]

lemma exists_of_mem_zipWith_mul [Mul α] :
    ∀ {as bs : List α} {c : α}, c ∈ List.zipWith (· * ·) as bs →
      ∃ a b, a ∈ as ∧ b ∈ bs ∧ c = a * b := by
  intro as
  induction as with
  | nil => intro bs c hc; simp at hc
  | cons a as ih =>
      intro bs c hc
      cases bs with
      | nil => simp at hc
      | cons b bs =>
          rcases List.mem_cons.mp hc with h | h
          · exact ⟨a, b, List.mem_cons_self a as, List.mem_cons_self b bs, h⟩
          · rcases ih h with ⟨x, y, hx, hy, hxy⟩
            exact ⟨x, y, List.mem_cons_of_mem a hx, List.mem_cons_of_mem b hy, hxy⟩

lemma sum_map_div [DivisionRing α] (l : List α) (c : α) :
    (l.map (fun v => v / c)).sum = l.sum / c := by
  induction l with
  | nil => simp
  | cons x xs ih => simp [ih, add_div]

lemma zipWith_mul_right_comm [CommMonoid α] :
    ∀ (d a b : List α),
      List.zipWith (· * ·) (List.zipWith (· * ·) d a) b =
        List.zipWith (· * ·) (List.zipWith (· * ·) d b) a := by
  intro d
  induction d with
  | nil => intro a b; simp
  | cons x d ih =>
      intro a b
      cases a with
      | nil => cases b <;> simp
      | cons p a =>
          cases b with
          | nil => simp
          | cons q b => simp [ih a b, mul_right_comm]

lemma foldl_zipWith_length [Mul α] :
    ∀ (ls : List (List α)) (d : List α), (∀ l ∈ ls, d.length ≤ l.length) →
      (ls.foldl (fun acc l => List.zipWith (· * ·) acc l) d).length = d.length := by
  intro ls
  induction ls with
  | nil => intro d _; rfl
  | cons l ls ih =>
      intro d hd
      have hlen : (List.zipWith (· * ·) d l).length = d.length := by
        rw [List.length_zipWith]
        exact min_eq_left (hd l (List.mem_cons_self l ls))
      have hrest : ∀ m ∈ ls, (List.zipWith (· * ·) d l).length ≤ m.length := by
        intro m hm
        rw [hlen]
        exact hd m (List.mem_cons_of_mem l hm)
      calc (List.foldl (fun acc l => List.zipWith (· * ·) acc l)
              (List.zipWith (· * ·) d l) ls).length
          = (List.zipWith (· * ·) d l).length := ih _ hrest
        _ = d.length := hlen

lemma foldl_zipWith_getElem? [MulZeroClass α] :
    ∀ (ls : List (List α)) (d : List α) (i : ℕ), i < d.length →
      (∀ l ∈ ls, d.length ≤ l.length) →
      (ls.foldl (fun acc l => List.zipWith (· * ·) acc l) d)[i]? =
        some (ls.foldl (fun a l => a * l.getD i 0) (d.getD i 0)) := by
  intro ls
  induction ls with
  | nil =>
      intro d i hi _
      simp [List.getElem?_eq_getElem hi, List.getD_eq_getElem d 0 hi]
  | cons l ls ih =>
      intro d i hi hd
      have hil : i < l.length :=
        lt_of_lt_of_le hi (hd l (List.mem_cons_self l ls))
      have hlen : (List.zipWith (· * ·) d l).length = d.length := by
        rw [List.length_zipWith]
        exact min_eq_left (hd l (List.mem_cons_self l ls))
      have hrest : ∀ m ∈ ls, (List.zipWith (· * ·) d l).length ≤ m.length := by
        intro m hm
        rw [hlen]
        exact hd m (List.mem_cons_of_mem l hm)
      have hstep : (List.zipWith (· * ·) d l).getD i 0 = d.getD i 0 * l.getD i 0 := by
        have hz : (List.zipWith (· * ·) d l)[i]? = some (d[i] * l[i]) :=
          zipWith_getElem?_eq _ (List.getElem?_eq_getElem hi) (List.getElem?_eq_getElem hil)
        have hilen : i < (List.zipWith (· * ·) d l).length := by rw [hlen]; exact hi
        rw [List.getD_eq_getElem _ 0 hilen, List.getD_eq_getElem d 0 hi,
          List.getD_eq_getElem l 0 hil]
        have := List.getElem?_eq_getElem hilen
        rw [this] at hz
        exact Option.some_injective _ hz
      have hih := ih (List.zipWith (· * ·) d l) i (by rw [hlen]; exact hi) hrest
      rw [hstep] at hih
      exact hih

lemma foldl_zipWith_nonneg [LinearOrderedField α] :
    ∀ (ls : List (List α)) (d : List α), (∀ x ∈ d, 0 ≤ x) →
      (∀ l ∈ ls, ∀ x ∈ l, 0 ≤ x) →
      ∀ x ∈ ls.foldl (fun acc l => List.zipWith (· * ·) acc l) d, 0 ≤ x := by
  intro ls
  induction ls with
  | nil => intro d hd _ x hx; exact hd x hx
  | cons l ls ih =>
      intro d hd hls x hx
      refine ih _ ?_ (fun m hm => hls m (List.mem_cons_of_mem l hm)) x hx
      intro y hy
      rcases exists_of_mem_zipWith_mul hy with ⟨a, b, ha, hb, rfl⟩
      exact mul_nonneg (hd a ha) (hls l (List.mem_cons_self l ls) b hb)

end ListLemmas

section ArgmaxLemmas

variable {α : Type} [LinearOrder α]

lemma argmaxAux_spec :
    ∀ (ys : List α) (best i : ℕ) (bv : α),
      (Mapper.argmaxAux best bv i ys = best ∧ ∀ y ∈ ys, y ≤ bv) ∨
      (∃ k, ∃ hk : k < ys.length, Mapper.argmaxAux best bv i ys = i + k ∧
        bv < ys.get ⟨k, hk⟩ ∧ ∀ y ∈ ys, y ≤ ys.get ⟨k, hk⟩) := by
  intro ys
  induction ys with
  | nil => intro best i bv; left; exact ⟨rfl, by simp⟩
  | cons y ys ih =>
      intro best i bv
      by_cases hlt : bv < y
      · have hstep : Mapper.argmaxAux best bv i (y :: ys) =
            Mapper.argmaxAux i y (i + 1) ys := by
          simp [Mapper.argmaxAux, hlt]
        rcases ih i (i + 1) y with ⟨h1, h2⟩ | ⟨k, hk, h1, h2, h3⟩
        · right
          refine ⟨0, by simp, ?_, ?_, ?_⟩
          · rw [hstep, h1]; omega
          · simpa using hlt
          · intro z hz
            rcases List.mem_cons.mp hz with rfl | hz
            · simp
            · simpa using h2 z hz
        · right
          refine ⟨k + 1, by simpa using Nat.succ_lt_succ hk, ?_, ?_, ?_⟩
          · rw [hstep, h1]; omega
          · rw [List.get_cons_succ]
            exact lt_trans hlt h2
          · intro z hz
            rw [List.get_cons_succ]
            rcases List.mem_cons.mp hz with rfl | hz
            · exact le_of_lt h2
            · exact h3 z hz
      · have hstep : Mapper.argmaxAux best bv i (y :: ys) =
            Mapper.argmaxAux best bv (i + 1) ys := by
          simp [Mapper.argmaxAux, hlt]
        rcases ih best (i + 1) bv with ⟨h1, h2⟩ | ⟨k, hk, h1, h2, h3⟩
        · left
          refine ⟨by rw [hstep, h1], ?_⟩
          intro z hz
          rcases List.mem_cons.mp hz with rfl | hz
          · exact le_of_not_lt hlt
          · exact h2 z hz
        · right
          refine ⟨k + 1, by simpa using Nat.succ_lt_succ hk, ?_, ?_, ?_⟩
          · rw [hstep, h1]; omega
          · rw [List.get_cons_succ]; exact h2
          · intro z hz
            rw [List.get_cons_succ]
            rcases List.mem_cons.mp hz with rfl | hz
            · exact le_trans (le_of_not_lt hlt) (le_of_lt h2)
            · exact h3 z hz

lemma argmax_lt_length (l : List α) (hl : l ≠ []) : Mapper.argmax l < l.length := by
  cases l with
  | nil => exact absurd rfl hl
  | cons v vs =>
      rcases argmaxAux_spec vs 0 1 v with ⟨h1, _⟩ | ⟨k, hk, h1, _, _⟩
      · simp [Mapper.argmax, h1]
      · simp only [Mapper.argmax, h1, List.length_cons]
        omega

lemma argmax_is_max (l : List α) (d : α) :
    ∀ j < l.length, l.getD j d ≤ l.getD (Mapper.argmax l) d := by
  cases l with
  | nil => intro j hj; simp at hj
  | cons v vs =>
      intro j hj
      rcases argmaxAux_spec vs 0 1 v with ⟨h1, h2⟩ | ⟨k, hk, h1, h2, h3⟩
      · have hargmax : Mapper.argmax (v :: vs) = 0 := h1
        rw [hargmax]
        have htop : (v :: vs).getD 0 d = v := rfl
        rw [htop]
        cases j with
        | zero => exact le_of_eq rfl
        | succ m =>
            have hm : m < vs.length := by simpa using hj
            rw [show (v :: vs).getD (m + 1) d = vs.getD m d from rfl,
              getD_eq_get_of_lt vs d hm]
            exact h2 _ (List.get_mem vs m hm)
      · have hargmax : Mapper.argmax (v :: vs) = 1 + k := h1
        have hk1 : 1 + k = k + 1 := by omega
        have hget : (v :: vs).getD (1 + k) d = vs.get ⟨k, hk⟩ := by
          rw [hk1, show (v :: vs).getD (k + 1) d = vs.getD k d from rfl,
            getD_eq_get_of_lt vs d hk]
        rw [hargmax, hget]
        cases j with
        | zero => exact le_of_lt h2
        | succ m =>
            have hm : m < vs.length := by simpa using hj
            rw [show (v :: vs).getD (m + 1) d = vs.getD m d from rfl,
              getD_eq_get_of_lt vs d hm]
            exact h3 _ (List.get_mem vs m hm)

end ArgmaxLemmas

section LatticeLemmas

lemma latitudes_length (n : ℕ) : (Mapper.latitudes n).length = n * n := by
  simp [Mapper.latitudes, Mapper.generate_mesh_grid]

lemma longitudes_length (n : ℕ) : (Mapper.longitudes n).length = n * n := by
  simp [Mapper.longitudes, Mapper.generate_mesh_grid]

lemma latitudes_getElem? (n i : ℕ) (hi : i < n * n) :
    (Mapper.latitudes n)[i]? = some ((Mapper.latitudes n).getD i 0) := by
  have h : i < (Mapper.latitudes n).length := by rw [latitudes_length]; exact hi
  rw [List.getElem?_eq_getElem h, List.getD_eq_getElem _ 0 h]

lemma longitudes_getElem? (n i : ℕ) (hi : i < n * n) :
    (Mapper.longitudes n)[i]? = some ((Mapper.longitudes n).getD i 0) := by
  have h : i < (Mapper.longitudes n).length := by rw [longitudes_length]; exact hi
  rw [List.getElem?_eq_getElem h, List.getD_eq_getElem _ 0 h]

lemma lattice_zip_getElem? (n i : ℕ) (hi : i < n * n) :
    ((Mapper.latitudes n).zip (Mapper.longitudes n))[i]? = some (Mapper.cell n i) := by
  rw [List.zip]
  exact zipWith_getElem?_eq Prod.mk (latitudes_getElem? n i hi) (longitudes_getElem? n i hi)

end LatticeLemmas

section CombineLemmas

variable {α : Type}

lemma get_pdf_first {β : Type} (p : ℚ × ℚ → β) (lats lons : List ℚ) :
    (Location.get_pdf p none lats lons).1 = (lats.zip lons).map p := rfl

lemma replicate_one_sum [AddMonoidWithOne α] (N : ℕ) :
    (List.replicate N (1 : α)).sum = (N : α) := by
  simp [List.sum_replicate]

lemma uniform_getElem? [DivisionRing α] (N i : ℕ) (hi : i < N) :
    ((List.replicate N (1 : α)).map
      (fun v => v / (List.replicate N (1 : α)).sum))[i]? = some (1 / (N : α)) := by
  rw [List.getElem?_map, List.getElem?_replicate, if_pos hi]
  simp [replicate_one_sum]

lemma uniform_getD [DivisionRing α] (N i : ℕ) (hi : i < N) :
    ((List.replicate N (1 : α)).map
      (fun v => v / (List.replicate N (1 : α)).sum)).getD i 0 = 1 / (N : α) := by
  have hlen : i < ((List.replicate N (1 : α)).map
      (fun v => v / (List.replicate N (1 : α)).sum)).length := by simpa using hi
  rw [List.getD_eq_getElem _ 0 hlen]
  have := uniform_getElem? (α := α) N i hi
  rw [List.getElem?_eq_getElem hlen] at this
  exact Option.some_injective _ this

lemma unnorm_length [Field α] (N : ℕ) (ls : List (List α))
    (hls : ∀ l ∈ ls, N ≤ l.length) : (Location.unnorm N ls).length = N := by
  have hd0 : ((List.replicate N (1 : α)).map
      (fun v => v / (List.replicate N (1 : α)).sum)).length = N := by simp
  rw [Location.unnorm]
  rw [foldl_zipWith_length ls _ (by rw [hd0]; exact hls)]
  exact hd0

lemma unnorm_getElem? [LinearOrderedField α] (N : ℕ) (ls : List (List α))
    (hls : ∀ l ∈ ls, N ≤ l.length) (i : ℕ) (hi : i < N) :
    (Location.unnorm N ls)[i]? =
      some (ls.foldl (fun a l => a * l.getD i 0) (1 / (N : α))) := by
  have hd0 : ((List.replicate N (1 : α)).map
      (fun v => v / (List.replicate N (1 : α)).sum)).length = N := by simp
  rw [Location.unnorm]
  rw [foldl_zipWith_getElem? ls _ i (by rw [hd0]; exact hi) (by rw [hd0]; exact hls),
    uniform_getD N i hi]

lemma unnorm_nonneg [LinearOrderedField α] (N : ℕ) (ls : List (List α))
    (hls : ∀ l ∈ ls, ∀ x ∈ l, 0 ≤ x) :
    ∀ x ∈ Location.unnorm N ls, 0 ≤ x := by
  rw [Location.unnorm]
  refine foldl_zipWith_nonneg ls _ ?_ hls
  intro x hx
  rcases List.mem_map.mp hx with ⟨v, hv, rfl⟩
  rcases (List.mem_replicate.mp hv).2 with rfl
  rw [replicate_one_sum]
  exact div_nonneg zero_le_one (Nat.cast_nonneg N)

lemma prenorm_pdf_lists [Field α] (lats lons : List ℚ) (objs : List (ℚ × ℚ → α)) :
    Mapper.prenorm lats lons objs =
      Location.unnorm lats.length (objs.map (fun p => (lats.zip lons).map p)) := rfl

lemma prenorm_length [Field α] (lats lons : List ℚ) (objs : List (ℚ × ℚ → α))
    (h : lats.length ≤ lons.length) :
    (Mapper.prenorm lats lons objs).length = lats.length := by
  rw [prenorm_pdf_lists]
  refine unnorm_length _ _ ?_
  intro l hl
  rcases List.mem_map.mp hl with ⟨p, _, rfl⟩
  simp [List.length_zip, h]

lemma prenorm_nonneg [LinearOrderedField α] (lats lons : List ℚ)
    (objs : List (ℚ × ℚ → α)) (hp : ∀ p ∈ objs, ∀ c, 0 ≤ p c) :
    ∀ x ∈ Mapper.prenorm lats lons objs, 0 ≤ x := by
  rw [prenorm_pdf_lists]
  refine unnorm_nonneg _ _ ?_
  intro l hl x hx
  rcases List.mem_map.mp hl with ⟨p, hpmem, rfl⟩
  rcases List.mem_map.mp hx with ⟨c, _, rfl⟩
  exact hp p hpmem c

lemma get_distribution_eq [Field α] (lats lons : List ℚ) (objs : List (ℚ × ℚ → α)) :
    Mapper.get_distribution lats lons objs =
      (Mapper.prenorm lats lons objs).map
        (fun v => v / (Mapper.prenorm lats lons objs).sum) := rfl

lemma prenorm_lattice_getElem? [LinearOrderedField α] (n : ℕ)
    (objs : List (ℚ × ℚ → α)) (i : ℕ) (hi : i < n * n) :
    (Mapper.prenorm (Mapper.latitudes n) (Mapper.longitudes n) objs)[i]? =
      some (objs.foldl (fun a p => a * p (Mapper.cell n i)) (1 / ((n * n : ℕ) : α))) := by
  have hzipLen : ((Mapper.latitudes n).zip (Mapper.longitudes n)).length = n * n := by
    simp [List.length_zip, latitudes_length, longitudes_length]
  have hls : ∀ l ∈ objs.map (fun p => ((Mapper.latitudes n).zip (Mapper.longitudes n)).map p),
      (Mapper.latitudes n).length ≤ l.length := by
    intro l hl
    rcases List.mem_map.mp hl with ⟨p, _, rfl⟩
    simp [hzipLen, latitudes_length]
  rw [prenorm_pdf_lists]
  rw [unnorm_getElem? _ _ hls i (by rw [latitudes_length]; exact hi)]
  rw [latitudes_length]
  congr 1
  rw [List.foldl_map]
  refine List.foldl_ext _ _ _ ?_
  intro a p _
  congr 1
  have hmap : (((Mapper.latitudes n).zip (Mapper.longitudes n)).map p)[i]? =
      some (p (Mapper.cell n i)) := by
    rw [List.getElem?_map, lattice_zip_getElem? n i hi]
    rfl
  have hilen : i < (((Mapper.latitudes n).zip (Mapper.longitudes n)).map p).length := by
    simpa [hzipLen] using hi
  rw [List.getD_eq_getElem _ 0 hilen]
  rw [List.getElem?_eq_getElem hilen] at hmap
  exact Option.some_injective _ hmap

end CombineLemmas

section DegenerateSegmentLemmas

lemma degenerate_segment_parts (p s : ℝ × ℝ) :
    River.line_length (s, s) ^ 2 = 0 ∧ River.u_num p (s, s) = 0 := by
  constructor
  · simp [River.line_length, River.line_x, River.line_y]
  · simp [River.u_num, River.line_x, River.line_y]

end DegenerateSegmentLemmas

section CrossTrackLemmas

lemma fmod_eq_self {a b : ℝ} (hb : 0 < b) (h0 : 0 ≤ a) (h1 : a < b) : fmod a b = a := by
  have hfloor : ⌊a / b⌋ = 0 :=
    Int.floor_eq_zero_iff.mpr ⟨div_nonneg h0 (le_of_lt hb), (div_lt_one hb).mpr h1⟩
  rw [fmod, hfloor]
  simp

lemma sin_ten_deg_pos : 0 < Real.sin (10 * (Real.pi / 180)) := by
  apply Real.sin_pos_of_pos_of_lt_pi
  · positivity
  · nlinarith [Real.pi_pos]

lemma degrees_pi_div_two : degrees (Real.pi / 2) = 90 := by
  rw [degrees]
  field_simp
  ring

lemma bearing_east : Satellite.bearing ((0 : ℚ), (0 : ℚ)) ((0 : ℚ), (10 : ℚ)) = 90 := by
  simp only [Satellite.bearing, radians]
  push_cast
  norm_num [Real.sin_zero, Real.cos_zero]
  rw [arctan2, if_neg (lt_irrefl 0), if_neg (lt_irrefl 0), if_pos sin_ten_deg_pos,
    degrees_pi_div_two]
  exact fmod_eq_self (by norm_num) (by norm_num) (by norm_num)

lemma bearing_north : Satellite.bearing ((0 : ℚ), (0 : ℚ)) ((10 : ℚ), (0 : ℚ)) = 0 := by
  simp only [Satellite.bearing, radians]
  push_cast
  norm_num [Real.sin_zero, Real.cos_zero]
  rw [arctan2, if_pos sin_ten_deg_pos]
  rw [zero_div, Real.arctan_zero, degrees, zero_mul]
  exact fmod_eq_self (by norm_num) (by norm_num) (by norm_num)

lemma gc_north : gc_distance (0, 0) (10, 0) = 6371 * (Real.pi / 18) := by
  have hnn : (0 : ℝ) ≤ Real.sin (10 * (Real.pi / 180) / 2) := by
    apply Real.sin_nonneg_of_nonneg_of_le_pi
    · positivity
    · nlinarith [Real.pi_pos]
  have hlow : -(Real.pi / 2) ≤ 10 * (Real.pi / 180) / 2 := by nlinarith [Real.pi_pos]
  have hhigh : 10 * (Real.pi / 180) / 2 ≤ Real.pi / 2 := by nlinarith [Real.pi_pos]
  simp only [gc_distance, radians]
  push_cast
  norm_num [Real.sin_zero, Real.cos_zero]
  rw [Real.sqrt_sq hnn, Real.arcsin_sin hlow hhigh]
  ring

lemma sat_dist_neg_of (geo : ℚ × ℚ → ℚ × ℚ → ℝ)
    (h1 : 0 < geo (0, 0) (10, 0)) (h2 : geo (0, 0) (10, 0) < Real.pi * 6371) :
    Satellite.distance geo ((0, 0), (0, 10)) (10, 0) < 0 := by
  have hR : Satellite.R = (6371 : ℝ) := rfl
  have hδpos : 0 < geo (0, 0) (10, 0) / Satellite.R := by
    rw [hR]
    positivity
  have hδlt : geo (0, 0) (10, 0) / Satellite.R < Real.pi := by
    rw [hR, div_lt_iff₀ (by norm_num : (0 : ℝ) < 6371)]
    linarith [h2]
  have hsin : 0 < Real.sin (geo (0, 0) (10, 0) / Satellite.R) :=
    Real.sin_pos_of_pos_of_lt_pi hδpos hδlt
  have harc : 0 < Real.arcsin (Real.sin (geo (0, 0) (10, 0) / Satellite.R)) :=
    Real.arcsin_pos.mpr hsin
  have hRpos : (0 : ℝ) < Satellite.R := by
    rw [hR]
    norm_num
  simp only [Satellite.distance]
  rw [bearing_north, bearing_east]
  have hrad : radians ((0 : ℝ) - 90) = -(Real.pi / 2) := by
    rw [radians]
    ring
  rw [hrad, Real.sin_neg, Real.sin_pi_div_two, mul_neg_one, Real.arcsin_neg]
  nlinarith

end CrossTrackLemmas

section ClampLemmas

lemma line_length_sq (line : (ℝ × ℝ) × (ℝ × ℝ)) :
    River.line_length line ^ 2 = River.line_x line ^ 2 + River.line_y line ^ 2 :=
  Real.sq_sqrt (by positivity)

lemma line_distance_clamp_parts (p : ℝ × ℝ) (line : (ℝ × ℝ) × (ℝ × ℝ))
    (h : River.line_length line ≠ 0) :
    (1 ≤ River.u_raw p line → River.line_distance p line = River.euclid p line.2) ∧
    (River.u_raw p line ≤ 0 → River.line_distance p line = River.euclid p line.1) ∧
    (0 ≤ River.u_raw p line → River.u_raw p line ≤ 1 →
      River.line_distance p line =
        |(p.1 - line.1.1) * River.line_y line - (p.2 - line.1.2) * River.line_x line| /
          River.line_length line) := by
  have hxy2 : River.line_x line ^ 2 + River.line_y line ^ 2 ≠ 0 := by
    rw [← line_length_sq]
    exact pow_ne_zero 2 h
  refine ⟨?_, ?_, ?_⟩
  · intro h1
    have hclip : River.clip (River.u_raw p line) 0 1 = 1 := by
      rw [River.clip, min_eq_right h1, max_eq_right zero_le_one]
    simp only [River.line_distance, hclip, River.euclid]
    congr 1
    simp only [River.line_x, River.line_y]
    ring
  · intro h2
    have hclip : River.clip (River.u_raw p line) 0 1 = 0 := by
      rw [River.clip, min_eq_left (le_trans h2 zero_le_one), max_eq_left h2]
    simp only [River.line_distance, hclip, River.euclid]
    congr 1
    ring
  · intro h0 h1
    have hclip : River.clip (River.u_raw p line) 0 1 = River.u_raw p line := by
      rw [River.clip, min_eq_left h1, max_eq_right h0]
    have habs : (0 : ℝ) ≤
        |(p.1 - line.1.1) * River.line_y line - (p.2 - line.1.2) * River.line_x line| /
          River.line_length line :=
      div_nonneg (abs_nonneg _) (Real.sqrt_nonneg _)
    simp only [River.line_distance, hclip]
    rw [← Real.sqrt_sq habs]
    congr 1
    rw [div_pow, sq_abs, line_length_sq]
    simp only [River.u_raw, River.u_num, line_length_sq]
    field_simp
    ring

end ClampLemmas

/-- Claim C1: for every non-empty selected subset of clues, the posterior
produced by `Mapper.get_distribution` over the `n × n` lattice is a
sequence of `n * n` non-negative entries summing to 1, obtained by
multiplying the uniform prior by each clue density and renormalizing
once; exact-arithmetic rendering, with the pre-normalization total mass
required to be nonzero (with the actual strictly positive clue densities
it always is in exact arithmetic; a zero mass only arises from
floating-point underflow, the case treated in the spec's zero-mass
clause). -/
theorem posterior_normalized {α : Type} [LinearOrderedField α] (n : ℕ) (_hn : 0 < n)
    (objs : List (ℚ × ℚ → α)) (_hne : objs ≠ [])
    (hpdf : ∀ p ∈ objs, ∀ c, 0 ≤ p c)
    (hmass : (Mapper.prenorm (Mapper.latitudes n) (Mapper.longitudes n) objs).sum ≠ 0) :
    (Mapper.get_distribution (Mapper.latitudes n) (Mapper.longitudes n) objs).length = n * n ∧
    (∀ x ∈ Mapper.get_distribution (Mapper.latitudes n) (Mapper.longitudes n) objs, 0 ≤ x) ∧
    (Mapper.get_distribution (Mapper.latitudes n) (Mapper.longitudes n) objs).sum = 1 := by
  have hlen : (Mapper.prenorm (Mapper.latitudes n) (Mapper.longitudes n) objs).length = n * n := by
    rw [prenorm_length _ _ _ (by rw [latitudes_length, longitudes_length]), latitudes_length]
  have hnn : ∀ x ∈ Mapper.prenorm (Mapper.latitudes n) (Mapper.longitudes n) objs, 0 ≤ x :=
    prenorm_nonneg _ _ _ hpdf
  have hsumpos : 0 < (Mapper.prenorm (Mapper.latitudes n) (Mapper.longitudes n) objs).sum :=
    lt_of_le_of_ne (List.sum_nonneg hnn) (Ne.symm hmass)
  refine ⟨?_, ?_, ?_⟩
  · rw [get_distribution_eq, List.length_map, hlen]
  · intro x hx
    rw [get_distribution_eq] at hx
    rcases List.mem_map.mp hx with ⟨v, hv, rfl⟩
    exact div_nonneg (hnn v hv) (le_of_lt hsumpos)
  · rw [get_distribution_eq, sum_map_div, div_self hmass]

/-- Witness for C1 at `n = 1` with the single constant density 1. -/
theorem posterior_normalized_witness :
    (0 < 1) ∧
    ([fun _ => (1 : ℚ)] ≠ ([] : List (ℚ × ℚ → ℚ))) ∧
    (∀ p ∈ [fun _ => (1 : ℚ)], ∀ c : ℚ × ℚ, 0 ≤ p c) ∧
    ((Mapper.prenorm (Mapper.latitudes 1) (Mapper.longitudes 1)
        [fun _ => (1 : ℚ)]).sum ≠ 0) ∧
    ((Mapper.get_distribution (Mapper.latitudes 1) (Mapper.longitudes 1)
        [fun _ => (1 : ℚ)]).length = 1 * 1 ∧
      (∀ x ∈ Mapper.get_distribution (Mapper.latitudes 1) (Mapper.longitudes 1)
        [fun _ => (1 : ℚ)], 0 ≤ x) ∧
      (Mapper.get_distribution (Mapper.latitudes 1) (Mapper.longitudes 1)
        [fun _ => (1 : ℚ)]).sum = 1) := by
  have h1 : 0 < 1 := Nat.one_pos
  have h2 : [fun _ => (1 : ℚ)] ≠ ([] : List (ℚ × ℚ → ℚ)) := List.cons_ne_nil _ _
  have h3 : ∀ p ∈ [fun _ => (1 : ℚ)], ∀ c : ℚ × ℚ, 0 ≤ p c := by
    intro p hp c
    rw [List.mem_singleton] at hp
    subst hp
    norm_num
  have h4 : (Mapper.prenorm (Mapper.latitudes 1) (Mapper.longitudes 1)
      [fun _ => (1 : ℚ)]).sum ≠ 0 := by
    norm_num [Mapper.prenorm, Mapper.latitudes, Mapper.longitudes, Mapper.generate_mesh_grid,
      Location.unnorm, Location.get_pdf, linspace, List.range_succ, List.getD]
  exact ⟨h1, h2, h3, h4, posterior_normalized 1 h1 _ h2 h3 h4⟩

/-- Claim C2: `Mapper.get_distribution` is order-independent — combining
clues `[A, B]` yields exactly the same posterior as `[B, A]` over any
lattice (multiplication commutes; exact over field arithmetic). -/
theorem get_distribution_order_independent {α : Type} [Field α]
    (lats lons : List ℚ) (A B : ℚ × ℚ → α) :
    Mapper.get_distribution lats lons [A, B] = Mapper.get_distribution lats lons [B, A] := by
  have key : Mapper.prenorm lats lons [A, B] = Mapper.prenorm lats lons [B, A] := by
    rw [prenorm_pdf_lists, prenorm_pdf_lists]
    simp only [List.map_cons, List.map_nil, Location.unnorm, List.foldl_cons, List.foldl_nil]
    exact zipWith_mul_right_comm _ _ _
  rw [get_distribution_eq, get_distribution_eq, key]

/-- Claim C3 (amended): none of the three clue constructors validates its
configuration — `River.__init__` and `Satellite.__init__` succeed on
coordinate lists shorter than 2 (the river then holds an empty segment
list, so failure surfaces only at the first `distance` query), and
`BGate.__init__` succeeds for every `mode`, including non-positive
values, because numpy scalar division by zero and `log`/`sqrt` of
negatives warn and produce `inf`/`nan` rather than raising. -/
theorem construction_never_rejects (coords : List (ℚ × ℚ)) (ci mean mode : ℚ) :
    constructionOk (River.init coords ci) = true ∧
    constructionOk (Satellite.init coords ci) = true ∧
    constructionOk (BGate.init coords mean mode) = true ∧
    (coords.length ≤ 1 →
      ∃ cfg, River.init coords ci = Except.ok cfg ∧ cfg.lines = []) := by
  refine ⟨rfl, rfl, rfl, ?_⟩
  intro h
  cases coords with
  | nil => exact ⟨_, rfl, rfl⟩
  | cons c cs =>
      cases cs with
      | nil => exact ⟨_, rfl, rfl⟩
      | cons d ds =>
          exfalso
          simp only [List.length_cons] at h
          omega

/-- Witness for C3 (amended) on the singleton river configuration. -/
theorem construction_never_rejects_witness :
    ([((52.5 : ℚ), (13.4 : ℚ))].length ≤ 1) ∧
    (∃ cfg, River.init [((52.5 : ℚ), (13.4 : ℚ))] 2.73 = Except.ok cfg ∧
      cfg.lines = []) := by
  have h : ([((52.5 : ℚ), (13.4 : ℚ))].length ≤ 1) := by decide
  exact ⟨h, (construction_never_rejects [((52.5 : ℚ), (13.4 : ℚ))] 2.73 4.7 (-1)).2.2.2 h⟩

/-- Counterexample to C3 as stated: a one-point polyline clue, a
one-point great-circle-path clue, and a landmark clue with negative
`mode` all construct successfully instead of failing with a
configuration error. -/
theorem invalid_config_constructs :
    constructionOk (River.init [((52.5 : ℚ), (13.4 : ℚ))] 2.73) = true ∧
    constructionOk (Satellite.init [((52.5 : ℚ), (13.4 : ℚ))] 2.4) = true ∧
    constructionOk (BGate.init [((52.516288 : ℚ), (13.377689 : ℚ))] 4.7 (-1)) = true :=
  ⟨rfl, rfl, rfl⟩

/-- Claim C4 (amended): `River.line_distance` has no guard for
zero-length segments — for every query point and every segment whose
endpoints coincide, the divisor `line_length ** 2` of the projection
parameter `u` is zero while its numerator is also zero, so the code
computes `u = 0 / 0`, which in its floating-point arithmetic is NaN and
propagates to the returned distance; no point/skip policy exists. -/
theorem degenerate_segment_divides_by_zero (p s : ℝ × ℝ) :
    River.line_length (s, s) ^ 2 = 0 ∧ River.u_num p (s, s) = 0 :=
  degenerate_segment_parts p s

/-- Counterexample to C4 as stated: at query point `(1, 2)` and the
degenerate segment from `(3, 4)` to `(3, 4)`, the divisor of the
projection parameter is zero — the computation does divide by zero. -/
theorem degenerate_segment_divides_by_zero_cx :
    River.line_length (((3 : ℝ), 4), ((3 : ℝ), 4)) ^ 2 = 0 ∧
    River.u_num ((1 : ℝ), 2) (((3 : ℝ), 4), ((3 : ℝ), 4)) = 0 :=
  degenerate_segment_parts ((1 : ℝ), 2) ((3 : ℝ), 4)

/-- Claim C5 (amended): when the pre-normalization mass is zero,
`Mapper.get_distribution` surfaces no error — it divides every cell by
the zero total (numpy emits only a RuntimeWarning and fills the array
with NaN) and returns the corrupted result; in the exact model the
returned list is all zeros and sums to 0, not 1. -/
theorem zero_mass_silent {α : Type} [Field α] (lats lons : List ℚ)
    (objs : List (ℚ × ℚ → α))
    (h : (Mapper.prenorm lats lons objs).sum = 0) :
    (∀ x ∈ Mapper.get_distribution lats lons objs, x = 0) ∧
    (Mapper.get_distribution lats lons objs).sum = 0 := by
  rw [get_distribution_eq, h]
  constructor
  · intro x hx
    rcases List.mem_map.mp hx with ⟨v, _, rfl⟩
    exact div_zero v
  · rw [sum_map_div, div_zero]

/-- Witness for C5 (amended) on a lattice point with an all-zero clue
density. -/
theorem zero_mass_silent_witness :
    ((Mapper.prenorm [(0 : ℚ)] [(0 : ℚ)] [fun _ => (0 : ℚ)]).sum = 0) ∧
    ((∀ x ∈ Mapper.get_distribution [(0 : ℚ)] [(0 : ℚ)] [fun _ => (0 : ℚ)], x = 0) ∧
      (Mapper.get_distribution [(0 : ℚ)] [(0 : ℚ)] [fun _ => (0 : ℚ)]).sum = 0) := by
  have h : (Mapper.prenorm [(0 : ℚ)] [(0 : ℚ)] [fun _ => (0 : ℚ)]).sum = 0 := by
    norm_num [Mapper.prenorm, Location.unnorm, Location.get_pdf, List.getD]
  exact ⟨h, zero_mass_silent _ _ _ h⟩

/-- Counterexample to C5 as stated: with a clue density that is zero on
the whole (one-point) lattice the total mass is zero, yet
`Mapper.get_distribution` returns an ordinary value — the corrupted
posterior `[0]`, whose sum is not 1 — instead of surfacing an explicit
computation error. -/
theorem zero_mass_returns_value :
    Mapper.get_distribution [(0 : ℚ)] [(0 : ℚ)] [fun _ => (0 : ℚ)] = [0] ∧
    (Mapper.get_distribution [(0 : ℚ)] [(0 : ℚ)] [fun _ => (0 : ℚ)]).sum ≠ 1 := by
  constructor <;>
    norm_num [Mapper.get_distribution, Mapper.prenorm, Location.unnorm,
      Location.get_pdf, List.getD]

/-- Claim C6 (amended): `Satellite.distance` returns the signed
cross-track distance — the code applies no absolute value to
`arcsin(sin(d13) * sin(radians(theta_13 - theta_12))) * R`.  For the
ground track from `(0, 0)` to `(0, 10)` and the query point `(10, 0)`
(north of the eastbound path), every geodesic distance value in
`(0, π R)` — which includes the value the external vincenty routine
returns there — makes the result strictly negative. -/
theorem satellite_distance_signed (geo : ℚ × ℚ → ℚ × ℚ → ℝ)
    (h1 : 0 < geo (0, 0) (10, 0)) (h2 : geo (0, 0) (10, 0) < Real.pi * 6371) :
    Satellite.distance geo ((0, 0), (0, 10)) (10, 0) < 0 :=
  sat_dist_neg_of geo h1 h2

/-- Witness for C6 (amended) with the geodesic instantiated at the
spec-modelled haversine distance. -/
theorem satellite_distance_signed_witness :
    (0 < gc_distance (0, 0) (10, 0)) ∧
    (gc_distance (0, 0) (10, 0) < Real.pi * 6371) ∧
    Satellite.distance gc_distance ((0, 0), (0, 10)) (10, 0) < 0 := by
  have h1 : 0 < gc_distance (0, 0) (10, 0) := by
    rw [gc_north]
    positivity
  have h2 : gc_distance (0, 0) (10, 0) < Real.pi * 6371 := by
    rw [gc_north]
    nlinarith [Real.pi_pos]
  exact ⟨h1, h2, satellite_distance_signed gc_distance h1 h2⟩

/-- Counterexample to C6 as stated: with the spec's haversine geodesic
standing in for the external vincenty call, `Satellite.distance` of the
point `(10, 0)` from the ground track `(0, 0) → (0, 10)` is strictly
negative — not the non-negative absolute cross-track distance the claim
asserts. -/
theorem satellite_distance_negative :
    Satellite.distance gc_distance ((0, 0), (0, 10)) (10, 0) < 0 := by
  have h1 : 0 < gc_distance (0, 0) (10, 0) := by
    rw [gc_north]
    positivity
  have h2 : gc_distance (0, 0) (10, 0) < Real.pi * 6371 := by
    rw [gc_north]
    nlinarith [Real.pi_pos]
  exact sat_dist_neg_of gc_distance h1 h2

/-- Claim C8: `River.line_distance` clamps the projection parameter `u`
to `[0, 1]` — for every query point and non-degenerate segment, a
projection falling at or beyond the far endpoint (`u ≥ 1`) yields the
Euclidean distance to that endpoint, one at or before the near endpoint
(`u ≤ 0`) yields the distance to that endpoint, and a projection inside
`[0, 1]` yields the perpendicular distance to the segment's line. -/
theorem line_distance_clamps (p : ℝ × ℝ) (line : (ℝ × ℝ) × (ℝ × ℝ))
    (h : River.line_length line ≠ 0) :
    (1 ≤ River.u_raw p line → River.line_distance p line = River.euclid p line.2) ∧
    (River.u_raw p line ≤ 0 → River.line_distance p line = River.euclid p line.1) ∧
    (0 ≤ River.u_raw p line → River.u_raw p line ≤ 1 →
      River.line_distance p line =
        |(p.1 - line.1.1) * River.line_y line - (p.2 - line.1.2) * River.line_x line| /
          River.line_length line) :=
  line_distance_clamp_parts p line h

/-- Witness for C8 on the unit segment from the origin. -/
theorem line_distance_clamps_witness :
    (River.line_length (((0 : ℝ), 0), ((1 : ℝ), 0)) ≠ 0) ∧
    ((1 ≤ River.u_raw ((0 : ℝ), 5) (((0 : ℝ), 0), ((1 : ℝ), 0)) →
      River.line_distance ((0 : ℝ), 5) (((0 : ℝ), 0), ((1 : ℝ), 0)) =
        River.euclid ((0 : ℝ), 5) ((1 : ℝ), 0)) ∧
     (River.u_raw ((0 : ℝ), 5) (((0 : ℝ), 0), ((1 : ℝ), 0)) ≤ 0 →
      River.line_distance ((0 : ℝ), 5) (((0 : ℝ), 0), ((1 : ℝ), 0)) =
        River.euclid ((0 : ℝ), 5) ((0 : ℝ), 0)) ∧
     (0 ≤ River.u_raw ((0 : ℝ), 5) (((0 : ℝ), 0), ((1 : ℝ), 0)) →
      River.u_raw ((0 : ℝ), 5) (((0 : ℝ), 0), ((1 : ℝ), 0)) ≤ 1 →
      River.line_distance ((0 : ℝ), 5) (((0 : ℝ), 0), ((1 : ℝ), 0)) =
        |(((0 : ℝ), 5).1 - (((0 : ℝ), 0), ((1 : ℝ), 0)).1.1) *
            River.line_y (((0 : ℝ), 0), ((1 : ℝ), 0)) -
          (((0 : ℝ), 5).2 - (((0 : ℝ), 0), ((1 : ℝ), 0)).1.2) *
            River.line_x (((0 : ℝ), 0), ((1 : ℝ), 0))| /
          River.line_length (((0 : ℝ), 0), ((1 : ℝ), 0)))) := by
  have h : River.line_length (((0 : ℝ), 0), ((1 : ℝ), 0)) ≠ 0 := by
    norm_num [River.line_length, River.line_x, River.line_y, Real.sqrt_one]
  exact ⟨h, line_distance_clamps ((0 : ℝ), 5) (((0 : ℝ), 0), ((1 : ℝ), 0)) h⟩

/-- Claim C9: index alignment — for every flat index `i < n * n`, the
`i`-th entry of every clue density sequence computed by
`Location.get_pdf` and the `i`-th entry of the posterior computed by
`Mapper.get_distribution` are functions of the same lattice coordinate
`(latitudes[i], longitudes[i])`, and `Mapper.find_maximum` returns the
lattice coordinate of the cell at `np.argmax` of the posterior, which
attains the posterior maximum. -/
theorem lattice_alignment {α : Type} [LinearOrderedField α] (n : ℕ) (hn : 0 < n)
    (objs : List (ℚ × ℚ → α)) :
    (∀ p ∈ objs, ∀ i, i < n * n →
      ((Location.get_pdf p none (Mapper.latitudes n) (Mapper.longitudes n)).1)[i]? =
        some (p (Mapper.cell n i))) ∧
    (∀ i, i < n * n →
      (Mapper.get_distribution (Mapper.latitudes n) (Mapper.longitudes n) objs)[i]? =
        some ((objs.foldl (fun a p => a * p (Mapper.cell n i)) (1 / ((n * n : ℕ) : α))) /
          (Mapper.prenorm (Mapper.latitudes n) (Mapper.longitudes n) objs).sum)) ∧
    (Mapper.find_maximum (Mapper.latitudes n) (Mapper.longitudes n)
        (Mapper.get_distribution (Mapper.latitudes n) (Mapper.longitudes n) objs) =
      Mapper.cell n (Mapper.argmax
        (Mapper.get_distribution (Mapper.latitudes n) (Mapper.longitudes n) objs)) ∧
     Mapper.argmax (Mapper.get_distribution (Mapper.latitudes n) (Mapper.longitudes n) objs) <
       (Mapper.get_distribution (Mapper.latitudes n) (Mapper.longitudes n) objs).length ∧
     ∀ j, j < (Mapper.get_distribution (Mapper.latitudes n) (Mapper.longitudes n) objs).length →
       (Mapper.get_distribution (Mapper.latitudes n) (Mapper.longitudes n) objs).getD j 0 ≤
         (Mapper.get_distribution (Mapper.latitudes n) (Mapper.longitudes n) objs).getD
           (Mapper.argmax
             (Mapper.get_distribution (Mapper.latitudes n) (Mapper.longitudes n) objs)) 0) := by
  have hpostlen :
      (Mapper.get_distribution (Mapper.latitudes n) (Mapper.longitudes n) objs).length = n * n := by
    rw [get_distribution_eq, List.length_map,
      prenorm_length _ _ _ (by rw [latitudes_length, longitudes_length]), latitudes_length]
  refine ⟨?_, ?_, rfl, ?_, ?_⟩
  · intro p _ i hi
    rw [get_pdf_first, List.getElem?_map, lattice_zip_getElem? n i hi]
    rfl
  · intro i hi
    rw [get_distribution_eq, List.getElem?_map, prenorm_lattice_getElem? n objs i hi]
    rfl
  · refine argmax_lt_length _ ?_
    intro hnil
    rw [hnil] at hpostlen
    have : 0 < n * n := Nat.mul_pos hn hn
    simp at hpostlen
    omega
  · exact fun j hj => argmax_is_max _ 0 j hj

/-- Witness for C9 at `n = 1` with the single constant density 2. -/
theorem lattice_alignment_witness :
    (0 < 1) ∧
    ((∀ p ∈ [fun _ => (2 : ℚ)], ∀ i, i < 1 * 1 →
      ((Location.get_pdf p none (Mapper.latitudes 1) (Mapper.longitudes 1)).1)[i]? =
        some (p (Mapper.cell 1 i))) ∧
    (∀ i, i < 1 * 1 →
      (Mapper.get_distribution (Mapper.latitudes 1) (Mapper.longitudes 1)
          [fun _ => (2 : ℚ)])[i]? =
        some (([fun _ => (2 : ℚ)].foldl (fun a p => a * p (Mapper.cell 1 i))
            (1 / ((1 * 1 : ℕ) : ℚ))) /
          (Mapper.prenorm (Mapper.latitudes 1) (Mapper.longitudes 1)
            [fun _ => (2 : ℚ)]).sum)) ∧
    (Mapper.find_maximum (Mapper.latitudes 1) (Mapper.longitudes 1)
        (Mapper.get_distribution (Mapper.latitudes 1) (Mapper.longitudes 1)
          [fun _ => (2 : ℚ)]) =
      Mapper.cell 1 (Mapper.argmax
        (Mapper.get_distribution (Mapper.latitudes 1) (Mapper.longitudes 1)
          [fun _ => (2 : ℚ)])) ∧
     Mapper.argmax (Mapper.get_distribution (Mapper.latitudes 1) (Mapper.longitudes 1)
         [fun _ => (2 : ℚ)]) <
       (Mapper.get_distribution (Mapper.latitudes 1) (Mapper.longitudes 1)
         [fun _ => (2 : ℚ)]).length ∧
     ∀ j, j < (Mapper.get_distribution (Mapper.latitudes 1) (Mapper.longitudes 1)
         [fun _ => (2 : ℚ)]).length →
       (Mapper.get_distribution (Mapper.latitudes 1) (Mapper.longitudes 1)
           [fun _ => (2 : ℚ)]).getD j 0 ≤
         (Mapper.get_distribution (Mapper.latitudes 1) (Mapper.longitudes 1)
             [fun _ => (2 : ℚ)]).getD
           (Mapper.argmax (Mapper.get_distribution (Mapper.latitudes 1)
             (Mapper.longitudes 1) [fun _ => (2 : ℚ)])) 0)) :=
  ⟨Nat.one_pos, lattice_alignment 1 Nat.one_pos [fun _ => (2 : ℚ)]⟩

/-- Claim C10: the density cache of `Location.get_pdf` is not keyed by
the lattice — once a first call has populated the cache, any later call
returns exactly the originally cached density list and leaves the cache
unchanged, regardless of the latitude and longitude sequences passed. -/
theorem get_pdf_cache_not_keyed {α : Type} (p : ℚ × ℚ → α)
    (lats1 lons1 lats2 lons2 : List ℚ) :
    (Location.get_pdf p (Location.get_pdf p none lats1 lons1).2 lats2 lons2).1 =
      (Location.get_pdf p none lats1 lons1).1 ∧
    (Location.get_pdf p (Location.get_pdf p none lats1 lons1).2 lats2 lons2).2 =
      (Location.get_pdf p none lats1 lons1).2 :=
  ⟨rfl, rfl⟩

end PdfMapping
